import Mathlib

/-
  Verification development for the cerebro2mqtt bridge.

  Shallow embedding of the Python sources under src/app/:
    protocol.py     — frame codec (build_frame, parse_frame, builders, dimmer
                      conversions, parse_polling_status)
    models.py       — slugify, BoardConfig and the configuration records
    config_store.py — ConfigStore._validate
    service.py      — ack-waiter resolution, send-with-ack transactions and
                      the MQTT command routing guard

  Conventions of the embedding:
  * Python `bytes`/byte lists are `List Nat`, with `% 256` written out where
    the source masks with `& 0xFF`.
  * Raising `ProtocolError` / `ConfigError` is `Except String` with the
    source's (Italian) message text.
  * Python floats in `parse_polling_status` are embedded as `ℚ`; the source
    formulas `data[4] + data[5]/10` only involve one decimal digit, so the
    rational value is the intended reading of the float arithmetic.
  * `bus_dimmer_to_percent` computes `int((bounded / 10.0) * 100)` in the
    source; for every `bounded ∈ {0,…,10}` this IEEE-754 computation yields
    exactly `10 * bounded` (checked value by value), so the embedding uses
    the exact integer form.
-/

namespace Cerebro

/-! ### protocol.py — constants -/

def FRAME_START_BYTE : Nat := 0x49
def FRAME_END_BYTE : Nat := 0x46
def FRAME_LENGTH : Nat := 14
def FRAME_MIN_LENGTH : Nat := 14
def FRAME_MAX_LENGTH : Nat := 15
def DATA_LENGTH : Nat := 10

def CMD_POLLING_EXTENDED : Nat := 0x40
def CMD_POLLING_RESPONSE : Nat := 0x50
def CMD_SET_POINT_TEMPERATURE : Nat := 0x5A
def CMD_SET_SEASON : Nat := 0x6B
def CMD_LIGHT_CONTROL_START_FIRST_FOUR : Nat := 0x51
def CMD_LIGHT_CONTROL_START_FIFTH_ONWARD : Nat := 0x65
def CMD_SHUTTER_CONTROL : Nat := 0x5C
def CMD_DIMMER_CONTROL : Nat := 0x5B
def CMD_SCENARIO_CONTROL : Nat := 0xAA

def CMD_LIGHT_DATA_RELAY_ON : Nat := 0x41
def CMD_LIGHT_DATA_RELAY_OFF : Nat := 0x53
def CMD_SHUTTER_DATA_UP : Nat := 0x55
def CMD_SHUTTER_DATA_DOWN : Nat := 0x44
def CMD_DIMMER_DATA : Nat := 0x53

/-- `ParsedFrame` dataclass from protocol.py. -/
structure ParsedFrame where
  address : Nat
  command : Nat
  data : List Nat
  raw : List Nat
  extra : List Nat := []
deriving Repr, DecidableEq

/-- `PollingStatus` dataclass from protocol.py. Temperatures are embedded
as exact rationals (see header note on floats). -/
structure PollingStatus where
  device_type : Nat
  outputs : Nat
  inputs : Nat
  dimmer_0_10 : Nat
  temperature : ℚ
  temperature_setpoint : ℚ
  season : Nat
deriving Repr, DecidableEq

/-- `_check_address` from protocol.py: raise on addresses outside [1,254].
Embedded as the failing condition. -/
def check_address_fails (address : Nat) : Bool :=
  address < 1 || address > 254

/-- `build_frame` from protocol.py. The source fills a 10-byte zero payload
and overwrites its first `len(data)` entries with `value & 0xFF`, which for
`data.length ≤ 10` equals the masked data right-padded with zeros. -/
def build_frame (address command : Nat) (data : List Nat) : Except String (List Nat) :=
  if check_address_fails address then
    .error "Address fuori range"
  else if data.length > DATA_LENGTH then
    .error "Data troppo lungo"
  else
    let payload := data.map (· % 256) ++ List.replicate (DATA_LENGTH - data.length) 0
    .ok ([FRAME_START_BYTE, address % 256, command % 256] ++ payload ++ [FRAME_END_BYTE])

/-- `parse_frame` from protocol.py. `raw[3:13]` is `(raw.drop 3).take 10`,
`raw[-1]` is the last element, and `raw[13:-1]` is `(raw.drop 13).dropLast`. -/
def parse_frame (raw : List Nat) : Except String ParsedFrame :=
  let frame_len := raw.length
  if frame_len < FRAME_MIN_LENGTH || frame_len > FRAME_MAX_LENGTH then
    .error "Lunghezza frame non valida"
  else if raw.headD 0 != FRAME_START_BYTE then
    .error "Start byte non valido"
  else if raw.getLastD 0 != FRAME_END_BYTE then
    .error "End byte non valido"
  else
    .ok { address := raw.getD 1 0
          command := raw.getD 2 0
          data := (raw.drop 3).take 10
          raw := raw
          extra := if frame_len > FRAME_LENGTH then (raw.drop 13).dropLast else [] }

/-- `build_polling_extended` from protocol.py. -/
def build_polling_extended (address : Nat) : Except String (List Nat) :=
  build_frame address CMD_POLLING_EXTENDED []

/-- `build_set_season` from protocol.py. -/
def build_set_season (address : Nat) (season : Nat) : Except String (List Nat) :=
  if season ≠ 0 ∧ season ≠ 1 then .error "Season deve essere 0 (winter) o 1 (summer)"
  else build_frame address CMD_SET_SEASON [season]

/-- `build_light_control` from protocol.py. -/
def build_light_control (address relay_index : Nat) (enabled : Bool) : Except String (List Nat) :=
  if relay_index < 1 || relay_index > 8 then
    .error "relay_index deve essere fra 1 e 8"
  else
    let command :=
      if relay_index ≥ 5 then CMD_LIGHT_CONTROL_START_FIFTH_ONWARD + (relay_index - 5)
      else CMD_LIGHT_CONTROL_START_FIRST_FOUR + (relay_index - 1)
    let state := if enabled then CMD_LIGHT_DATA_RELAY_ON else CMD_LIGHT_DATA_RELAY_OFF
    build_frame address command [state]

/-- `build_shutter_control` from protocol.py. -/
def build_shutter_control (address shutter_index : Nat) (up : Bool) : Except String (List Nat) :=
  if shutter_index < 1 || shutter_index > 4 then
    .error "shutter_index deve essere fra 1 e 4"
  else
    let action := if up then CMD_SHUTTER_DATA_UP else CMD_SHUTTER_DATA_DOWN
    build_frame address CMD_SHUTTER_CONTROL [shutter_index, action]

/-- `percent_to_bus_dimmer` from protocol.py:
`min(9, (max(0, min(100, percent)) * 10) // 100)`. The clamped value is
non-negative, so Python's floor division is `Nat` division on
`(max 0 (min 100 percent)).toNat`. -/
def percent_to_bus_dimmer (percent : Int) : Nat :=
  min 9 ((max 0 (min 100 percent)).toNat * 10 / 100)

/-- `bus_dimmer_to_percent` from protocol.py:
`int((max(0, min(10, value)) / 10.0) * 100)`. For every clamped value in
`{0,…,10}` the float expression is exactly `10 * bounded` (verified value
by value), embedded in that exact integer form. -/
def bus_dimmer_to_percent (value : Int) : Nat :=
  (max 0 (min 10 value)).toNat * 10

/-- `build_dimmer_control` from protocol.py. -/
def build_dimmer_control (address : Nat) (percent : Int) : Except String (List Nat) :=
  build_frame address CMD_DIMMER_CONTROL [CMD_DIMMER_DATA, percent_to_bus_dimmer percent]

/-- `parse_polling_status` from protocol.py. `frame.data[i]` is `data.getD i 0`;
every frame produced by `parse_frame` carries exactly 10 data bytes. -/
def parse_polling_status (frame : ParsedFrame) : Except String PollingStatus :=
  if frame.command ≠ CMD_POLLING_EXTENDED ∧ frame.command ≠ CMD_POLLING_RESPONSE then
    .error "Comando inatteso in polling response"
  else
    let d := fun i => frame.data.getD i 0
    let raw_dimmer := d 3
    let dimmer := if raw_dimmer > 8 then 10 else raw_dimmer
    let temperature_abs : ℚ := (d 4 : ℚ) + (d 5 : ℚ) / 10
    let temperature : ℚ := if d 6 = 0x2D then -temperature_abs else temperature_abs
    let temperature_setpoint : ℚ := (d 8 : ℚ) + (d 7 : ℚ) / 10
    .ok { device_type := d 0
          outputs := d 1
          inputs := d 2
          dimmer_0_10 := dimmer
          temperature := temperature
          temperature_setpoint := temperature_setpoint
          season := d 9 }

/-! ### models.py — slugify and configuration records -/

/-- The regex character class `[a-zA-Z0-9]` of slugify's
`re.sub(r"[^a-zA-Z0-9]+", "_", ·)`, by code point: digits 48–57,
uppercase 65–90, lowercase 97–122. -/
def isAsciiAlnum (c : Char) : Bool :=
  decide (48 ≤ c.toNat ∧ c.toNat ≤ 57 ∨ 65 ≤ c.toNat ∧ c.toNat ≤ 90 ∨
    97 ≤ c.toNat ∧ c.toNat ≤ 122)

/-- Python `str.strip()` whitespace set (ASCII part), by code point:
space 32, tab 9, newline 10, carriage return 13, vertical tab 11,
form feed 12. -/
def isPyWs (c : Char) : Bool :=
  decide (c.toNat = 32 ∨ c.toNat = 9 ∨ c.toNat = 10 ∨ c.toNat = 13 ∨
    c.toNat = 11 ∨ c.toNat = 12)

/-- `value.strip()` on a character list: drop leading and trailing whitespace. -/
def pyStrip (l : List Char) : List Char :=
  ((l.dropWhile isPyWs).reverse.dropWhile isPyWs).reverse

/-- `.strip("_")`: drop leading and trailing underscores. -/
def stripUnderscore (l : List Char) : List Char :=
  ((l.dropWhile (· = '_')).reverse.dropWhile (· = '_')).reverse

/-- `re.sub(r"[^a-zA-Z0-9]+", "_", ·)`: replace every maximal run of
non-alphanumeric characters by a single underscore. The flag records
whether the previous character belonged to such a run. -/
def collapseNonAlnum : Bool → List Char → List Char
  | _, [] => []
  | prevNon, c :: rest =>
    if isAsciiAlnum c then c :: collapseNonAlnum false rest
    else if prevNon then collapseNonAlnum true rest
    else '_' :: collapseNonAlnum true rest

/-- `slugify` from models.py:
`re.sub(r"[^a-zA-Z0-9]+", "_", value.strip().lower()).strip("_")` with the
empty result replaced by `"board"`. Case mapping is modelled on ASCII
(`Char.toLower`), matching Python for ASCII input. -/
def slugifyChars (l : List Char) : List Char :=
  let cleaned := stripUnderscore (collapseNonAlnum false ((pyStrip l).map Char.toLower))
  if cleaned = [] then "board".toList else cleaned

/-- String-level wrapper of `slugifyChars`. -/
def slugify (s : String) : String :=
  ⟨slugifyChars s.data⟩

/-- Analysis predicate for slugify outputs: the head of the list, if any,
is alphanumeric. -/
def headAl : List Char → Bool
  | [] => true
  | c :: _ => isAsciiAlnum c

/-- Analysis predicate for slugify outputs: no two adjacent characters
are both non-alphanumeric. -/
def noAdjNon : List Char → Bool
  | c :: d :: rest => (isAsciiAlnum c || isAsciiAlnum d) && noAdjNon (d :: rest)
  | _ => true

/-- `BoardType` enum from models.py. -/
inductive BoardType where
  | lights
  | shutters
  | thermostat
  | dimmer
deriving Repr, DecidableEq

/-- Modelled from the spec: the board record. The fields other than
`publish_enabled` are the `BoardConfig` dataclass of src/app/models.py
verbatim. The `publish_enabled` flag (spec §3: "`enabled` and
`publish_enabled` flags") is read by service.py and by the repository's
test suite, but the `BoardConfig` definition under src/ does not declare
it (the spec's design notes record that the repository holds two
conflicting `BoardConfig` definitions); it is added here following the
spec's words, defaulting to published. -/
structure BoardConfig where
  name : String
  board_type : BoardType
  address : Int
  channel_start : Int := 1
  channel_end : Int := 1
  topic : String := ""
  enabled : Bool := true
  publish_enabled : Bool := true
  board_id : String := ""
deriving Repr, DecidableEq

/-- `BoardConfig.topic_slug` property: `slugify(self.topic or self.name)`
(Python `or` takes `name` when `topic` is the empty string). -/
def BoardConfig.topic_slug (b : BoardConfig) : String :=
  slugify (if b.topic = "" then b.name else b.topic)

/-- `BoardConfig.primary_channel` property. -/
def BoardConfig.primary_channel (b : BoardConfig) : Int :=
  b.channel_start

/-- `SerialConfig` from models.py (timeout as an exact rational). -/
structure SerialConfig where
  port : String := "/dev/ttyUSB0"
  baudrate : Int := 9600
  bytesize : Int := 8
  parity : String := "N"
  stopbits : Int := 1
  timeout_sec : ℚ := 1/4
deriving Repr, DecidableEq

/-- `MQTTConfig` from models.py. `discovery_root` is the source field
`discovery_` followed by `prefix` (renamed here). -/
structure MQTTConfig where
  host : String := "127.0.0.1"
  port : Int := 1883
  username : String := ""
  password : String := ""
  client_id : String := "cerebro2mqtt"
  base_topic : String := "cerebro2mqtt"
  discovery_root : String := "homeassistant"
  keepalive : Int := 60
deriving Repr, DecidableEq

/-- `PollingConfig` from models.py. -/
structure PollingConfig where
  interval_sec : Int := 30
  auto_start : Bool := true
deriving Repr, DecidableEq

/-- `WebConfig` from models.py. -/
structure WebConfig where
  host : String := "0.0.0.0"
  port : Int := 80
deriving Repr, DecidableEq

/-- `ServiceConfig` from models.py. -/
structure ServiceConfig where
  restart_command : String := ""
deriving Repr, DecidableEq

/-- `AppConfig` from models.py. -/
structure AppConfig where
  serial : SerialConfig := {}
  mqtt : MQTTConfig := {}
  polling : PollingConfig := {}
  web : WebConfig := {}
  service : ServiceConfig := {}
  boards : List BoardConfig := []
deriving Repr, DecidableEq

/-! ### config_store.py — `ConfigStore._validate` -/

/-- The per-board checks of `_validate` (name, address, channel range by
board type), in source order, excluding the duplicate-slug check. -/
def validateBoard (b : BoardConfig) : Except String Unit :=
  if b.name = "" then .error "Ogni scheda deve avere un nome"
  else if b.address < 1 ∨ b.address > 254 then .error "Indirizzo non valido"
  else
    match b.board_type with
    | .lights =>
      if b.channel_start < 1 ∨ b.channel_start > 8 then .error "Canale di partenza non valido"
      else if b.channel_end < 1 ∨ b.channel_end > 8 then .error "Canale finale non valido"
      else if b.channel_start > b.channel_end then .error "Range canali non valido"
      else .ok ()
    | .shutters =>
      if b.channel_start < 1 ∨ b.channel_start > 8 then .error "Canale non valido"
      else .ok ()
    | _ =>
      if b.channel_start < 1 then .error "Canale non valido"
      else .ok ()

/-- The board loop of `_validate`, threading the `seen_topics` set. -/
def validateBoards (seen : List String) : List BoardConfig → Except String Unit
  | [] => .ok ()
  | b :: rest =>
    match validateBoard b with
    | .error e => .error e
    | .ok () =>
      if b.topic_slug ∈ seen then .error "Topic duplicato"
      else validateBoards (b.topic_slug :: seen) rest

/-- `ConfigStore._validate` from config_store.py. -/
def validate (config : AppConfig) : Except String Unit :=
  if config.serial.baudrate ≤ 0 then .error "Serial baudrate non valido"
  else if config.mqtt.port ≤ 0 then .error "Porta MQTT non valida"
  else if config.polling.interval_sec < 1 then .error "Polling interval deve essere >= 1"
  else if config.web.port ≤ 0 then .error "Porta web non valida"
  else validateBoards [] config.boards

/-- Refinement definition following the words of the claim about
validation: the claim enumerates the failing conditions as baudrate ≤ 0,
MQTT port ≤ 0, polling interval < 1, web port ≤ 0, a board with empty
name, an address outside [1,254], a lights board whose channel range lies
outside [1,8] or has start > end, a shutters board whose channel is
outside [1,8], or two boards sharing a topic slug. To be compared with
`validate`, which is translated from the source. -/
def claimInvalid (c : AppConfig) : Bool :=
  c.serial.baudrate ≤ 0 || c.mqtt.port ≤ 0 || c.polling.interval_sec < 1 ||
  c.web.port ≤ 0 ||
  c.boards.any (fun b =>
    b.name = "" || b.address < 1 || b.address > 254 ||
    (b.board_type = .lights &&
      (b.channel_start < 1 || b.channel_start > 8 || b.channel_end < 1 ||
       b.channel_end > 8 || b.channel_start > b.channel_end)) ||
    (b.board_type = .shutters &&
      (b.channel_start < 1 || b.channel_start > 8))) ||
  !decide (c.boards.map BoardConfig.topic_slug).Nodup

/-- Per-board failing condition of the amended claim: the claim's
conditions plus the source's remaining branch, a dimmer or thermostat
board with `channel_start < 1`. -/
def boardInvalidAmended (b : BoardConfig) : Bool :=
  b.name = "" || b.address < 1 || b.address > 254 ||
  (b.board_type = .lights &&
    (b.channel_start < 1 || b.channel_start > 8 || b.channel_end < 1 ||
     b.channel_end > 8 || b.channel_start > b.channel_end)) ||
  (b.board_type = .shutters && (b.channel_start < 1 || b.channel_start > 8)) ||
  ((b.board_type = .dimmer || b.board_type = .thermostat) && b.channel_start < 1)

/-- Failing condition of the amended claim for a whole configuration. -/
def amendedInvalid (c : AppConfig) : Bool :=
  c.serial.baudrate ≤ 0 || c.mqtt.port ≤ 0 || c.polling.interval_sec < 1 ||
  c.web.port ≤ 0 ||
  c.boards.any boardInvalidAmended ||
  !decide (c.boards.map BoardConfig.topic_slug).Nodup

/-- A configuration with a single thermostat board whose `channel_start`
is 0: none of the claim's enumerated conditions hold, yet `validate`
raises on its dimmer/thermostat channel branch. -/
def counterexampleConfigC5 : AppConfig where
  boards := [{ name := "t", board_type := .thermostat, address := 1,
               channel_start := 0, channel_end := 0, topic := "t",
               enabled := true, publish_enabled := true, board_id := "b1" }]

/-! ### service.py — ack waiters, transactions, MQTT command routing

`_AckWaiter` is a mutable dataclass holding an address, a matcher, a
`threading.Event` and a captured frame. Each waiter object has its own
identity (a fresh `Event`), modelled by the `id` field; "the event is set"
is the `signaled` flag. A Python predicate may raise, so the matcher is
embedded as `ParsedFrame → Except Unit Bool` with `.error` for a raised
exception. -/

structure AckWaiter where
  id : Nat
  address : Nat
  matcher : ParsedFrame → Except Unit Bool
  frame : Option ParsedFrame := none
  signaled : Bool := false

/-- The resolver's per-waiter test: address equality, then the matcher,
where a raised exception (`.error`) is logged and treated as no-match
(`except: continue` in `_resolve_waiters`). -/
def waiterMatches (f : ParsedFrame) (w : AckWaiter) : Bool :=
  if w.address ≠ f.address then false
  else
    match w.matcher f with
    | .ok true => true
    | _ => false

/-- First loop of `_resolve_waiters`: walk the list, and for each matching
waiter capture the frame, set the event, and append it to `resolved`. -/
def resolveWalk (f : ParsedFrame) : List AckWaiter → List AckWaiter
  | [] => []
  | w :: rest =>
    if waiterMatches f w then
      { w with frame := some f, signaled := true } :: resolveWalk f rest
    else resolveWalk f rest

/-- `list.remove`-style removal of the first waiter with a given identity.
Python's `self._ack_waiters.remove(waiter)` removes the first list entry
equal to the resolved waiter object; waiter objects are distinguished by
their fresh `Event`, modelled by `id`. -/
def removeById (i : Nat) : List AckWaiter → List AckWaiter
  | [] => []
  | w :: rest => if w.id = i then rest else w :: removeById i rest

/-- `_resolve_waiters` from service.py: returns the waiter list after the
removal loop together with the list of resolved (captured and signaled)
waiters. -/
def resolve_waiters (f : ParsedFrame) (ws : List AckWaiter) :
    List AckWaiter × List AckWaiter :=
  ((resolveWalk f ws).foldl (fun acc w => removeById w.id acc) ws,
   resolveWalk f ws)

/-- `_discard_waiter` from service.py: remove the waiter if present. -/
def discard_waiter (ws : List AckWaiter) (w : AckWaiter) : List AckWaiter :=
  removeById w.id ws

/-- Environment outcome of one `_send_with_ack` transaction: the serial
write fails, the wait times out, or a frame `f` arrives and the resolver
completes the waiter with it. -/
inductive TxOutcome where
  | sendFail
  | timeout
  | acked (f : ParsedFrame)

/-- `_send_with_ack` from service.py, as a function of the environment
outcome: append the fresh waiter; on send failure or timeout discard it and
return `(false, none)`; when a frame `f` resolves the waiter, the resolver
(`resolve_waiters`) has already updated the list and the captured frame is
returned with `true`. Result: `((ok, frame), final waiter list)`. -/
def send_with_ack (ws : List AckWaiter) (w : AckWaiter) (outcome : TxOutcome) :
    (Bool × Option ParsedFrame) × List AckWaiter :=
  let registered := ws ++ [w]
  match outcome with
  | .sendFail => ((false, none), discard_waiter registered w)
  | .timeout => ((false, none), discard_waiter registered w)
  | .acked f => ((true, some f), (resolve_waiters f registered).1)

/-- The externally visible actions the command handler can take. An empty
effect list is a silently dropped command: in particular no bus frame is
sent and no broker message is published. The `dispatch…` effects stand for
entry into the per-kind handlers (`_handle_light_command`, …), which are
the only places that send frames or publish; `triggerPoll…` effects set
polling events. -/
inductive HandlerEffect where
  | triggerPollAll
  | triggerPollBoard (b : BoardConfig)
  | dispatchLight (b : BoardConfig) (command_path payload : String)
  | dispatchShutter (b : BoardConfig) (command_path payload : String)
  | dispatchDimmer (b : BoardConfig) (command_path payload : String)
  | dispatchThermostat (b : BoardConfig) (command_path payload : String)

/-- Lookup in `_boards_by_topic` (slug → board). -/
def lookupSlug (index : List (String × BoardConfig)) (slug : String) :
    Option BoardConfig :=
  match index with
  | [] => none
  | (s, b) :: rest => if s = slug then some b else lookupSlug rest slug

/-- `_handle_mqtt_command` from service.py, on the topic's path segments
below `base_topic` (the broker topic is `base_topic ++ "/" ++` the
`"/"`-join of `parts`; the source splits the tail on `"/"`). In source
order: the literal `{base}/poll_all/set` topic triggers a global poll; a
tail of fewer than two segments is dropped; an unknown slug is dropped; a
board with `publish_enabled = False` is dropped; `poll/set` polls the
board; otherwise the command is routed to the per-kind handler. -/
def handle_mqtt_command (index : List (String × BoardConfig))
    (parts : List String) (payload : String) : List HandlerEffect :=
  if parts = ["poll_all", "set"] then [.triggerPollAll]
  else
    match parts with
    | [] => []
    | [_] => []
    | board_slug :: rest =>
      match lookupSlug index board_slug with
      | none => []
      | some board =>
        if board.publish_enabled = false then []
        else
          let command_path := String.intercalate "/" rest
          if command_path = "poll/set" then [.triggerPollBoard board]
          else
            match board.board_type with
            | .lights => [.dispatchLight board command_path payload]
            | .shutters => [.dispatchShutter board command_path payload]
            | .dimmer => [.dispatchDimmer board command_path payload]
            | .thermostat => [.dispatchThermostat board command_path payload]

/-! ### Concrete waiter scenario data -/

/-- A sample inbound frame (a light-control echo for address 2). -/
def sampleFrame : ParsedFrame where
  address := 2
  command := 0x51
  data := [0x41, 0, 0, 0, 0, 0, 0, 0, 0, 0]
  raw := [0x49, 0x02, 0x51, 0x41, 0, 0, 0, 0, 0, 0, 0, 0, 0, 0x46]
  extra := []

/-- A waiter for address 2 whose predicate always returns true. -/
def sampleWaiter1 : AckWaiter where
  id := 1
  address := 2
  matcher := fun _ => .ok true

/-- A second waiter for address 2 whose predicate always returns true. -/
def sampleWaiter2 : AckWaiter where
  id := 2
  address := 2
  matcher := fun _ => .ok true

/-- A lights board indexed under slug `"kitchen"` with
`publish_enabled = false`. -/
def sampleBoardUnpublished : BoardConfig where
  name := "Kitchen"
  board_type := .lights
  address := 2
  channel_start := 1
  channel_end := 1
  topic := "kitchen"
  enabled := true
  publish_enabled := false
  board_id := "b1"

/-! ### Concrete example data (spec §8 scenarios) -/

/-- Raw bytes of scenario S4: `49 02 40 11 05 00 04 16 00 00 02 02 01 46`. -/
def exampleS4Raw : List Nat :=
  [0x49, 0x02, 0x40, 0x11, 0x05, 0x00, 0x04, 0x16, 0x00, 0x00, 0x02, 0x02, 0x01, 0x46]

/-- The parsed S4 frame. -/
def exampleS4Frame : ParsedFrame where
  address := 2
  command := 0x40
  data := [0x11, 0x05, 0x00, 0x04, 0x16, 0x00, 0x00, 0x02, 0x02, 0x01]
  raw := exampleS4Raw
  extra := []

/-- Raw bytes of scenario S6, a 15-byte frame with extra byte 0xF8. -/
def exampleS6Raw : List Nat :=
  [0x49, 0x02, 0x50, 0x11, 0x01, 0x00, 0x04, 0x16, 0x00, 0x00, 0x02, 0x02, 0x01, 0xF8, 0x46]

/-- The parsed S6 frame. -/
def exampleS6Frame : ParsedFrame where
  address := 2
  command := 0x50
  data := [0x11, 0x01, 0x00, 0x04, 0x16, 0x00, 0x00, 0x02, 0x02, 0x01]
  raw := exampleS6Raw
  extra := [0xF8]

/-! ### Supporting lemmas -/

lemma Char_eq_of_toNat_eq {a b : Char} (h : a.toNat = b.toNat) : a = b := by
  apply Char.ext
  exact UInt32.toNat.inj h

lemma toNat_ofNat_valid {n : Nat} (h : n.isValidChar) : (Char.ofNat n).toNat = n := by
  unfold Char.ofNat
  rw [dif_pos h]
  simp [Char.ofNatAux, Char.toNat, UInt32.toNat]

lemma toLower_toNat (c : Char) :
    (c.toLower).toNat = if 65 ≤ c.toNat ∧ c.toNat ≤ 90 then c.toNat + 32 else c.toNat := by
  have hrw : c.toLower = if c.toNat ≥ 65 ∧ c.toNat ≤ 90 then Char.ofNat (c.toNat + 32) else c := rfl
  rw [hrw]
  split_ifs with h
  · exact toNat_ofNat_valid (Or.inl (by omega))
  · rfl

lemma toLower_idem (c : Char) : c.toLower.toLower = c.toLower := by
  apply Char_eq_of_toNat_eq
  rw [toLower_toNat, toLower_toNat]
  split_ifs <;> omega

lemma isPyWs_toLower (c : Char) : isPyWs c.toLower = isPyWs c := by
  unfold isPyWs
  rw [decide_eq_decide, toLower_toNat]
  split_ifs <;> omega

lemma isAsciiAlnum_toLower (c : Char) : isAsciiAlnum c.toLower = isAsciiAlnum c := by
  unfold isAsciiAlnum
  rw [decide_eq_decide, toLower_toNat]
  split_ifs <;> omega

lemma build_frame_ok (a c : Nat) (d : List Nat)
    (ha : check_address_fails a = false) (hd : d.length ≤ 10) :
    build_frame a c d =
      .ok ([0x49, a % 256, c % 256] ++
        (d.map (· % 256) ++ List.replicate (10 - d.length) 0) ++
        [0x46]) := by
  unfold build_frame
  rw [if_neg (by simp [ha]), if_neg (by simp [DATA_LENGTH]; omega)]
  rfl

lemma parse_frame_ok_of (l : List Nat) (h : l.length = 14)
    (h0 : l.headD 0 = 0x49) (hl : l.getLastD 0 = 0x46) :
    parse_frame l = .ok ⟨l.getD 1 0, l.getD 2 0, (l.drop 3).take 10, l, []⟩ := by
  unfold parse_frame
  simp only [h, h0, hl, FRAME_MIN_LENGTH, FRAME_MAX_LENGTH, FRAME_LENGTH,
    FRAME_START_BYTE, FRAME_END_BYTE]
  norm_num

lemma percent_to_bus_dimmer_mono {p q : Int} (h : p ≤ q) :
    percent_to_bus_dimmer p ≤ percent_to_bus_dimmer q := by
  unfold percent_to_bus_dimmer
  have h1 : max 0 (min 100 p) ≤ max 0 (min 100 q) :=
    max_le_max (le_refl 0) (min_le_min (le_refl 100) h)
  exact min_le_min (le_refl 9)
    (Nat.div_le_div_right (Nat.mul_le_mul_right 10 (Int.toNat_le_toNat h1)))

lemma bus_dimmer_to_percent_mono {v w : Int} (h : v ≤ w) :
    bus_dimmer_to_percent v ≤ bus_dimmer_to_percent w := by
  unfold bus_dimmer_to_percent
  have h1 : max 0 (min 10 v) ≤ max 0 (min 10 w) :=
    max_le_max (le_refl 0) (min_le_min (le_refl 10) h)
  exact Nat.mul_le_mul_right 10 (Int.toNat_le_toNat h1)

/-! ### Claims -/

/-- Claim C3 (counterexample): the claim asserts that the dimmer
roundtrip `bus_dimmer_to_percent (percent_to_bus_dimmer p)` equals 100 at
`p = 100`; on the code a percent of 100 maps to bus level
`min 9 (100·10/100) = 9`, which maps back to 90, not 100. -/
theorem claim_C3_counterexample :
    bus_dimmer_to_percent (percent_to_bus_dimmer 100) = 90 ∧
    bus_dimmer_to_percent (percent_to_bus_dimmer 100) ≠ 100 := by
  decide

/-- Claim C3 (amended): for integer percents `0 ≤ p ≤ q ≤ 100` the
roundtrip `bus_dimmer_to_percent (percent_to_bus_dimmer ·)` is monotone
non-decreasing, equals 0 at `p = 0`, and equals 90 (not 100) at
`p = 100`. -/
theorem claim_C3_amended (p q : Int) (h0 : 0 ≤ p) (hpq : p ≤ q) (h1 : q ≤ 100) :
    bus_dimmer_to_percent (percent_to_bus_dimmer p) ≤
      bus_dimmer_to_percent (percent_to_bus_dimmer q) ∧
    bus_dimmer_to_percent (percent_to_bus_dimmer 0) = 0 ∧
    bus_dimmer_to_percent (percent_to_bus_dimmer 100) = 90 := by
  refine ⟨?_, by decide, by decide⟩
  exact bus_dimmer_to_percent_mono (Int.ofNat_le.mpr (percent_to_bus_dimmer_mono hpq))

/-- Claim C3 witness: the amended theorem applied at `p = 0`, `q = 100`. -/
theorem claim_C3_witness :
    (0 : Int) ≤ 0 ∧ (0 : Int) ≤ 100 ∧ (100 : Int) ≤ 100 ∧
    (bus_dimmer_to_percent (percent_to_bus_dimmer 0) ≤
       bus_dimmer_to_percent (percent_to_bus_dimmer 100) ∧
     bus_dimmer_to_percent (percent_to_bus_dimmer 0) = 0 ∧
     bus_dimmer_to_percent (percent_to_bus_dimmer 100) = 90) :=
  ⟨by decide, by decide, by decide,
   claim_C3_amended 0 100 (by decide) (by decide) (by decide)⟩

/-- Claim C7 (confirmed): for addresses in [1,254] and relay indices in
[1,8], `build_light_control` uses command byte `0x51+(n-1)` for relays
1–4 and `0x65+(n-5)` for relays 5–8, with first data byte 0x41 for ON and
0x53 for OFF; an index outside [1,8] raises `ProtocolError`; in
particular `build_light_control 10 5 false` has command byte 0x65 and
first data byte 0x53. -/
theorem claim_C7_light_control (addr n : Nat) (e : Bool)
    (ha1 : 1 ≤ addr) (ha2 : addr ≤ 254) :
    (1 ≤ n → n ≤ 8 →
      ∃ fr, build_light_control addr n e = .ok fr ∧
        (n ≤ 4 → fr.getD 2 0 = 0x51 + (n - 1)) ∧
        (5 ≤ n → fr.getD 2 0 = 0x65 + (n - 5)) ∧
        fr.getD 3 0 = (if e then 0x41 else 0x53)) ∧
    ((n < 1 ∨ 8 < n) →
      build_light_control addr n e = .error "relay_index deve essere fra 1 e 8") ∧
    (∃ fr, build_light_control 10 5 false = .ok fr ∧
      fr.getD 2 0 = 0x65 ∧ fr.getD 3 0 = 0x53) := by
  refine ⟨?_, ?_, ?_⟩
  · intro h1 h8
    have hcond : ¬ (n < 1 || n > 8) = true := by simp; omega
    have hstate : (if e then CMD_LIGHT_DATA_RELAY_ON else CMD_LIGHT_DATA_RELAY_OFF) % 256 =
        (if e then 0x41 else 0x53) := by
      cases e <;> decide
    have haddr : check_address_fails addr = false := by
      simp [check_address_fails]
      omega
    unfold build_light_control
    rw [if_neg hcond]
    rw [build_frame_ok _ _ _ haddr (by simp)]
    refine ⟨_, rfl, ?_, ?_, ?_⟩
    · intro h4
      have : ¬ n ≥ 5 := by omega
      simp only [this, if_false, List.getD]
      simp [CMD_LIGHT_CONTROL_START_FIRST_FOUR, Nat.mod_eq_of_lt (by omega : 0x51 + (n - 1) < 256)]
    · intro h5
      simp only [(by omega : n ≥ 5) , if_true, List.getD]
      simp [CMD_LIGHT_CONTROL_START_FIFTH_ONWARD, Nat.mod_eq_of_lt (by omega : 0x65 + (n - 5) < 256)]
    · simp [List.getD, hstate]
  · intro h
    unfold build_light_control
    rw [if_pos (by simp; omega)]
  · exact ⟨[0x49, 10, 0x65, 0x53, 0, 0, 0, 0, 0, 0, 0, 0, 0, 0x46], rfl, by decide, by decide⟩

lemma map_mod_eq_self {d : List Nat} (h : ∀ x ∈ d, x < 256) :
    d.map (· % 256) = d := by
  calc d.map (· % 256) = d.map id :=
        List.map_congr_left (fun x hx => Nat.mod_eq_of_lt (h x hx))
    _ = d := List.map_id d

/-- Claim C4 (confirmed): for every address in [1,254], command byte, and
data list of at most 10 bytes, `parse_frame (build_frame a c d)` returns a
`ParsedFrame` with address `a`, command `c`, and data `d` right-padded
with zeros to exactly 10 bytes. -/
theorem claim_C4_roundtrip (a c : Nat) (d : List Nat)
    (ha1 : 1 ≤ a) (ha2 : a ≤ 254) (hc : c < 256)
    (hd : d.length ≤ 10) (hbytes : ∀ x ∈ d, x < 256) :
    ∃ pf, (build_frame a c d).bind parse_frame = .ok pf ∧
      pf.address = a ∧ pf.command = c ∧
      pf.data = d ++ List.replicate (10 - d.length) 0 := by
  have haddr : check_address_fails a = false := by
    simp [check_address_fails]
    omega
  rw [build_frame_ok a c d haddr hd, map_mod_eq_self hbytes,
    Nat.mod_eq_of_lt (by omega : a < 256), Nat.mod_eq_of_lt hc]
  set payload := d ++ List.replicate (10 - d.length) 0 with hpayload
  have hpl : payload.length = 10 := by
    simp [hpayload]
    omega
  set L := [0x49, a, c] ++ payload ++ [0x46] with hL
  have hframe : L.length = 14 := by
    simp [hL, hpl]
  have hhead : L.headD 0 = 0x49 := by
    simp [hL]
  have hlast : L.getLastD 0 = 0x46 := by
    rw [hL, List.getLastD_concat]
  rw [Except.bind, parse_frame_ok_of L hframe hhead hlast]
  refine ⟨_, rfl, ?_, ?_, ?_⟩
  · simp [hL]
  · simp [hL]
  · show (L.drop 3).take 10 = payload
    rw [hL, List.append_assoc]
    show ((0x49 :: a :: c :: (payload ++ [0x46])).drop 3).take 10 = payload
    rw [List.drop_succ_cons, List.drop_succ_cons, List.drop_succ_cons, List.drop_zero]
    exact List.take_left' hpl

/-- Claim C4 witness: the theorem applied to address 7, command 0x5C,
data `[3, 0x55]`. -/
theorem claim_C4_witness :
    (1 : Nat) ≤ 7 ∧ (7 : Nat) ≤ 254 ∧ (0x5C : Nat) < 256 ∧
    ([3, 0x55] : List Nat).length ≤ 10 ∧ (∀ x ∈ ([3, 0x55] : List Nat), x < 256) ∧
    ∃ pf, (build_frame 7 0x5C [3, 0x55]).bind parse_frame = .ok pf ∧
      pf.address = 7 ∧ pf.command = 0x5C ∧
      pf.data = [3, 0x55] ++ List.replicate (10 - ([3, 0x55] : List Nat).length) 0 :=
  ⟨by decide, by decide, by decide, by decide, by decide,
   claim_C4_roundtrip 7 0x5C [3, 0x55] (by decide) (by decide) (by decide)
     (by decide) (by decide)⟩

/-- Claim C6 (confirmed): `parse_polling_status` accepts exactly commands
0x40 and 0x50 (anything else raises `ProtocolError`) and maps data index 0
to `device_type`, 1 to `outputs`, 2 to `inputs`, 3 to `dimmer_0_10` with
raw values > 8 normalized to 10, temperature to `data[4] + data[5]/10`
negated when `data[6] = 0x2D`, setpoint to `data[8] + data[7]/10` and
season to `data[9]`; in particular parsing
`49 02 40 11 05 00 04 16 00 00 02 02 01 46` yields device type 0x11,
outputs 0b101, dimmer 4, temperature 22.0, setpoint 2.2, season 1. -/
theorem claim_C6_polling_parse (frame : ParsedFrame) :
    ((frame.command ≠ 0x40 ∧ frame.command ≠ 0x50) →
      parse_polling_status frame = .error "Comando inatteso in polling response") ∧
    ((frame.command = 0x40 ∨ frame.command = 0x50) →
      parse_polling_status frame = .ok
        { device_type := frame.data.getD 0 0
          outputs := frame.data.getD 1 0
          inputs := frame.data.getD 2 0
          dimmer_0_10 := if 8 < frame.data.getD 3 0 then 10 else frame.data.getD 3 0
          temperature :=
            if frame.data.getD 6 0 = 0x2D then
              -((frame.data.getD 4 0 : ℚ) + (frame.data.getD 5 0 : ℚ) / 10)
            else (frame.data.getD 4 0 : ℚ) + (frame.data.getD 5 0 : ℚ) / 10
          temperature_setpoint :=
            (frame.data.getD 8 0 : ℚ) + (frame.data.getD 7 0 : ℚ) / 10
          season := frame.data.getD 9 0 }) ∧
    (parse_frame exampleS4Raw = .ok exampleS4Frame ∧
     parse_polling_status exampleS4Frame =
       .ok { device_type := 0x11, outputs := 5, inputs := 0,
             dimmer_0_10 := 4, temperature := 22,
             temperature_setpoint := 22/10, season := 1 }) := by
  refine ⟨?_, ?_, rfl, ?_⟩
  · intro h
    unfold parse_polling_status
    rw [if_pos ⟨h.1, h.2⟩]
  · intro h
    unfold parse_polling_status
    rw [if_neg (by rcases h with h | h <;> simp [h, CMD_POLLING_EXTENDED, CMD_POLLING_RESPONSE])]
  · unfold parse_polling_status exampleS4Frame
    rw [if_neg (by decide)]
    norm_num

/-- Claim C6 witness: the theorem applied to the parsed S4 frame. -/
theorem claim_C6_witness :
    (exampleS4Frame.command = 0x40 ∨ exampleS4Frame.command = 0x50) ∧
    parse_polling_status exampleS4Frame =
      .ok { device_type := 0x11, outputs := 5, inputs := 0, dimmer_0_10 := 4,
            temperature := 22, temperature_setpoint := 22/10, season := 1 } := by
  refine ⟨Or.inl rfl, ?_⟩
  exact (claim_C6_polling_parse exampleS4Frame).2.2.2

/-- Claim C10 (confirmed): `parse_frame` fails (with `ProtocolError`)
exactly when the input length is outside [14,15], the first byte is not
0x49, or the last byte is not 0x46; on success the data is exactly bytes
3..12 (always 10 bytes), the address and command are bytes 1 and 2, and
`extra` is empty for a 14-byte input and the single byte at index 13 for a
15-byte input. -/
theorem claim_C10_parse_frame_total (raw : List Nat) :
    ((∃ e, parse_frame raw = .error e) ↔
      (raw.length < 14 ∨ 15 < raw.length ∨ raw.headD 0 ≠ 0x49 ∨ raw.getLastD 0 ≠ 0x46)) ∧
    (∀ pf, parse_frame raw = .ok pf →
      pf.data = (raw.drop 3).take 10 ∧ pf.data.length = 10 ∧
      pf.address = raw.getD 1 0 ∧ pf.command = raw.getD 2 0 ∧
      (raw.length = 14 → pf.extra = []) ∧
      (raw.length = 15 → pf.extra = [raw.getD 13 0])) := by
  unfold parse_frame
  by_cases h1 : raw.length < 14 ∨ 15 < raw.length
  · rw [if_pos (by simp [FRAME_MIN_LENGTH, FRAME_MAX_LENGTH]; omega)]
    refine ⟨⟨fun _ => by tauto, fun _ => ⟨_, rfl⟩⟩, fun pf hpf => by cases hpf⟩
  · rw [if_neg (by simp [FRAME_MIN_LENGTH, FRAME_MAX_LENGTH]; omega)]
    by_cases h2 : raw.headD 0 = 0x49
    · rw [if_neg (by rw [h2]; decide)]
      by_cases h3 : raw.getLastD 0 = 0x46
      · rw [if_neg (by rw [h3]; decide)]
        constructor
        · constructor
          · rintro ⟨e, he⟩
            cases he
          · intro h
            rcases h with h | h | h | h
            · omega
            · omega
            · exact absurd h2 h
            · exact absurd h3 h
        · intro pf hpf
          cases hpf
          refine ⟨rfl, ?_, rfl, rfl, fun h14 => ?_, fun h15 => ?_⟩
          · simp
            omega
          · rw [if_neg (by simp [FRAME_LENGTH]; omega)]
          · rw [if_pos (by simp [FRAME_LENGTH]; omega)]
            have hdl : (raw.drop 13).length = 2 := by
              simp
              omega
            obtain ⟨x, y, hxy⟩ := List.length_eq_two.mp hdl
            have hx : raw.getD 13 0 = x := by
              rw [List.getD_eq_getElem?_getD]
              have hq : raw[13]? = (raw.drop 13)[0]? := by
                rw [List.getElem?_drop]
              rw [hq, hxy]
              rfl
            rw [hxy, hx]
            rfl
      · rw [if_pos (by simp only [bne_iff_ne, ne_eq]; exact h3)]
        exact ⟨⟨fun _ => by tauto, fun _ => ⟨_, rfl⟩⟩, fun pf hpf => by cases hpf⟩
    · rw [if_pos (by simp only [bne_iff_ne, ne_eq]; exact h2)]
      exact ⟨⟨fun _ => by tauto, fun _ => ⟨_, rfl⟩⟩, fun pf hpf => by cases hpf⟩

/-- Claim C10 witness: the theorem applied to the 15-byte S6 frame. -/
theorem claim_C10_witness :
    parse_frame exampleS6Raw = .ok exampleS6Frame ∧
    exampleS6Raw.length = 15 ∧
    exampleS6Frame.extra = [exampleS6Raw.getD 13 0] := by
  refine ⟨rfl, rfl, ?_⟩
  exact ((claim_C10_parse_frame_total exampleS6Raw).2 exampleS6Frame rfl).2.2.2.2.2 rfl

/-- Claim C7 witness: the theorem applied at address 10, relay 5, OFF. -/
theorem claim_C7_witness :
    (1 : Nat) ≤ 10 ∧ (10 : Nat) ≤ 254 ∧
    (∃ fr, build_light_control 10 5 false = .ok fr ∧
      fr.getD 2 0 = 0x65 ∧ fr.getD 3 0 = 0x53) :=
  ⟨by decide, by decide, (claim_C7_light_control 10 5 false (by decide) (by decide)).2.2⟩

lemma removeById_head (w : AckWaiter) (ws : List AckWaiter) :
    removeById w.id (w :: ws) = ws := by
  simp [removeById]

lemma removeById_cons_ne {x : AckWaiter} {i : Nat} (h : x.id ≠ i)
    (ws : List AckWaiter) : removeById i (x :: ws) = x :: removeById i ws := by
  simp [removeById, h]

lemma resolveWalk_ids (f : ParsedFrame) :
    ∀ ws : List AckWaiter, ∀ x ∈ resolveWalk f ws, x.id ∈ ws.map AckWaiter.id := by
  intro ws
  induction ws with
  | nil => simp [resolveWalk]
  | cons w rest ih =>
    intro x hx
    by_cases hm : waiterMatches f w
    · rw [resolveWalk, if_pos hm] at hx
      rcases List.mem_cons.mp hx with hx | hx
      · subst hx
        exact List.mem_map.mpr ⟨w, List.mem_cons_self w rest, rfl⟩
      · exact List.map_cons AckWaiter.id w rest ▸ List.mem_cons_of_mem _ (ih x hx)
    · rw [resolveWalk, if_neg hm] at hx
      exact List.map_cons AckWaiter.id w rest ▸ List.mem_cons_of_mem _ (ih x hx)

lemma foldl_removeById_cons (w : AckWaiter) :
    ∀ (l ws : List AckWaiter), (∀ x ∈ l, x.id ≠ w.id) →
      l.foldl (fun acc x => removeById x.id acc) (w :: ws) =
        w :: l.foldl (fun acc x => removeById x.id acc) ws := by
  intro l
  induction l with
  | nil => intro ws _; rfl
  | cons x xs ih =>
    intro ws h
    simp only [List.foldl_cons]
    rw [removeById_cons_ne (fun he => h x (List.mem_cons_self x xs) he.symm)]
    exact ih _ (fun y hy => h y (List.mem_cons_of_mem _ hy))

lemma resolve_remaining_eq_filter (f : ParsedFrame) :
    ∀ ws : List AckWaiter, (ws.map AckWaiter.id).Nodup →
      (resolve_waiters f ws).1 = ws.filter (fun w => ! waiterMatches f w) := by
  intro ws
  induction ws with
  | nil => intro _; rfl
  | cons w rest ih =>
    intro hn
    rw [List.map_cons, List.nodup_cons] at hn
    obtain ⟨hw, hrest⟩ := hn
    by_cases hm : waiterMatches f w
    · have hwalk : resolveWalk f (w :: rest) =
          { w with frame := some f, signaled := true } :: resolveWalk f rest := by
        rw [resolveWalk, if_pos hm]
      show (resolveWalk f (w :: rest)).foldl (fun acc x => removeById x.id acc) (w :: rest) = _
      rw [hwalk, List.foldl_cons]
      have hrm : removeById ({ w with frame := some f, signaled := true } : AckWaiter).id
          (w :: rest) = rest := removeById_head w rest
      rw [hrm]
      have : (resolveWalk f rest).foldl (fun acc x => removeById x.id acc) rest =
          rest.filter (fun x => ! waiterMatches f x) := ih hrest
      rw [this, List.filter_cons]
      simp [hm]
    · have hwalk : resolveWalk f (w :: rest) = resolveWalk f rest := by
        rw [resolveWalk, if_neg hm]
      show (resolveWalk f (w :: rest)).foldl (fun acc x => removeById x.id acc) (w :: rest) = _
      rw [hwalk]
      rw [foldl_removeById_cons w _ _
        (fun x hx he => hw (he ▸ resolveWalk_ids f rest x hx))]
      have : (resolveWalk f rest).foldl (fun acc x => removeById x.id acc) rest =
          rest.filter (fun x => ! waiterMatches f x) := ih hrest
      rw [this, List.filter_cons]
      simp [hm]

lemma resolve_resolved_eq (f : ParsedFrame) :
    ∀ ws : List AckWaiter, (resolve_waiters f ws).2 =
      (ws.filter (waiterMatches f)).map
        (fun w => { w with frame := some f, signaled := true }) := by
  intro ws
  induction ws with
  | nil => rfl
  | cons w rest ih =>
    show resolveWalk f (w :: rest) = _
    by_cases hm : waiterMatches f w
    · rw [resolveWalk, if_pos hm, List.filter_cons]
      simp only [hm, if_true, List.map_cons]
      exact congrArg _ ih
    · rw [resolveWalk, if_neg hm, List.filter_cons]
      simp only [hm, Bool.false_eq_true, if_false]
      exact ih

lemma waiterMatches_false_of_error {f : ParsedFrame} {w : AckWaiter}
    (h : w.matcher f = .error ()) : waiterMatches f w = false := by
  unfold waiterMatches
  split_ifs with ha
  · rfl
  · rw [h]

/-- Claim C2 (counterexample): the claim asserts that only the FIRST
matching waiter captures a frame and that a later waiter that also
matches is left in place. In `_resolve_waiters` the walk has no break:
with two waiters for address 2 whose predicates both return true, both
capture the frame and both are removed — the remaining list is empty, so
the second waiter is not left in place. -/
theorem claim_C2_counterexample :
    waiterMatches sampleFrame sampleWaiter1 = true ∧
    waiterMatches sampleFrame sampleWaiter2 = true ∧
    (resolve_waiters sampleFrame [sampleWaiter1, sampleWaiter2]).1 = [] ∧
    (resolve_waiters sampleFrame [sampleWaiter1, sampleWaiter2]).2.map AckWaiter.id
      = [1, 2] :=
  ⟨rfl, rfl, rfl, rfl⟩

/-- Claim C2 (amended): `resolve(frame)` removes and completes EVERY
waiter whose address equals the frame's address and whose predicate
returns true (not only the first): the remaining list is exactly the
non-matching waiters, each resolved waiter captures the frame and is
signaled, and a waiter whose predicate raises an exception is treated as
no-match and kept. (Waiter identities are assumed distinct, as each
transaction allocates a fresh waiter object.) -/
theorem claim_C2_amended (f : ParsedFrame) (ws : List AckWaiter)
    (hn : (ws.map AckWaiter.id).Nodup) :
    (resolve_waiters f ws).1 = ws.filter (fun w => ! waiterMatches f w) ∧
    (resolve_waiters f ws).2 =
      (ws.filter (waiterMatches f)).map
        (fun w => { w with frame := some f, signaled := true }) ∧
    (∀ w ∈ ws, w.matcher f = .error () → w ∈ (resolve_waiters f ws).1) := by
  refine ⟨resolve_remaining_eq_filter f ws hn, resolve_resolved_eq f ws, ?_⟩
  intro w hw herr
  rw [resolve_remaining_eq_filter f ws hn]
  exact List.mem_filter.mpr ⟨hw, by rw [waiterMatches_false_of_error herr]; rfl⟩

/-- Claim C2 witness: the amended theorem applied to the two-waiter
scenario. -/
theorem claim_C2_witness :
    (([sampleWaiter1, sampleWaiter2].map AckWaiter.id).Nodup) ∧
    (resolve_waiters sampleFrame [sampleWaiter1, sampleWaiter2]).1 =
      [sampleWaiter1, sampleWaiter2].filter
        (fun w => ! waiterMatches sampleFrame w) ∧
    (resolve_waiters sampleFrame [sampleWaiter1, sampleWaiter2]).2 =
      ([sampleWaiter1, sampleWaiter2].filter (waiterMatches sampleFrame)).map
        (fun w => { w with frame := some sampleFrame, signaled := true }) :=
  ⟨by decide,
   (claim_C2_amended sampleFrame [sampleWaiter1, sampleWaiter2] (by decide)).1,
   (claim_C2_amended sampleFrame [sampleWaiter1, sampleWaiter2] (by decide)).2.1⟩

lemma removeById_append_not_mem (w : AckWaiter) :
    ∀ ws : List AckWaiter, w.id ∉ ws.map AckWaiter.id →
      removeById w.id (ws ++ [w]) = ws := by
  intro ws
  induction ws with
  | nil => intro _; simp [removeById]
  | cons x rest ih =>
    intro h
    simp only [List.map_cons, List.mem_cons] at h
    push_neg at h
    rw [List.cons_append, removeById_cons_ne (fun he => h.1 he.symm), ih h.2]

/-- Claim C8 (confirmed): every transaction removes its (fresh) ack
waiter from the waiter list before returning, in every outcome: on send
failure it discards the waiter and returns `(false, none)`; on timeout it
discards the waiter and returns `(false, none)`; on a matching frame the
resolver has already removed the waiter and the transaction returns
`(true, captured frame)`. In all cases the registered waiter is no longer
in the final list. -/
theorem claim_C8_transaction_cleanup (ws : List AckWaiter) (w : AckWaiter)
    (hfresh : w.id ∉ ws.map AckWaiter.id)
    (hnodup : (ws.map AckWaiter.id).Nodup) :
    send_with_ack ws w .sendFail = ((false, none), ws) ∧
    send_with_ack ws w .timeout = ((false, none), ws) ∧
    (∀ f, waiterMatches f w = true →
      (send_with_ack ws w (.acked f)).1 = (true, some f) ∧
      ∀ x ∈ (send_with_ack ws w (.acked f)).2, x.id ≠ w.id) := by
  have hdiscard : discard_waiter (ws ++ [w]) w = ws :=
    removeById_append_not_mem w ws hfresh
  refine ⟨?_, ?_, ?_⟩
  · show ((false, none), discard_waiter (ws ++ [w]) w) = ((false, none), ws)
    rw [hdiscard]
  · show ((false, none), discard_waiter (ws ++ [w]) w) = ((false, none), ws)
    rw [hdiscard]
  · intro f hmatch
    refine ⟨rfl, ?_⟩
    intro x hx
    have hnodup2 : ((ws ++ [w]).map AckWaiter.id).Nodup := by
      rw [List.map_append, List.nodup_append]
      refine ⟨hnodup, List.nodup_singleton _, ?_⟩
      intro a ha hb
      simp only [List.map_cons, List.map_nil, List.mem_singleton] at hb
      exact hfresh (hb ▸ ha)
    have h2 : (send_with_ack ws w (.acked f)).2 =
        (resolve_waiters f (ws ++ [w])).1 := rfl
    rw [h2, resolve_remaining_eq_filter f _ hnodup2] at hx
    obtain ⟨hmem, hkeep⟩ := List.mem_filter.mp hx
    rcases List.mem_append.mp hmem with hmem | hmem
    · intro he
      exact hfresh (he ▸ List.mem_map_of_mem AckWaiter.id hmem)
    · rw [List.mem_singleton] at hmem
      subst hmem
      rw [hmatch] at hkeep
      cases hkeep

/-- Claim C8 witness: the theorem applied to an empty waiter list, the
sample waiter and the sample frame, in all three outcomes. -/
theorem claim_C8_witness :
    sampleWaiter1.id ∉ ([] : List AckWaiter).map AckWaiter.id ∧
    send_with_ack [] sampleWaiter1 .sendFail = ((false, none), []) ∧
    send_with_ack [] sampleWaiter1 .timeout = ((false, none), []) ∧
    waiterMatches sampleFrame sampleWaiter1 = true ∧
    (send_with_ack [] sampleWaiter1 (.acked sampleFrame)).1 =
      (true, some sampleFrame) ∧
    (send_with_ack [] sampleWaiter1 (.acked sampleFrame)).2 = [] := by
  have h := claim_C8_transaction_cleanup [] sampleWaiter1 (by simp) (by simp)
  exact ⟨by simp, h.1, h.2.1, rfl, (h.2.2 sampleFrame rfl).1, rfl⟩

lemma exists_error_iff {x : Except String Unit} :
    (∃ e, x = .error e) ↔ ¬ x = .ok () := by
  cases x with
  | error e => simp
  | ok u => cases u; simp

lemma validateBoard_ok_iff (b : BoardConfig) :
    validateBoard b = .ok () ↔ boardInvalidAmended b = false := by
  unfold validateBoard boardInvalidAmended
  cases htype : b.board_type <;> split_ifs <;> simp_all <;> omega

lemma validateBoards_ok_iff :
    ∀ (bs : List BoardConfig) (seen : List String),
      validateBoards seen bs = .ok () ↔
        ((∀ b ∈ bs, validateBoard b = .ok ()) ∧
         (bs.map BoardConfig.topic_slug).Nodup ∧
         ∀ s ∈ bs.map BoardConfig.topic_slug, s ∉ seen) := by
  intro bs
  induction bs with
  | nil =>
    intro seen
    simp [validateBoards]
  | cons b rest ih =>
    intro seen
    rw [validateBoards]
    cases hvb : validateBoard b with
    | error e =>
      simp only [hvb]
      constructor
      · intro h
        cases h
      · rintro ⟨hall, -, -⟩
        have hb := hall b (List.mem_cons_self b rest)
        rw [hvb] at hb
        cases hb
    | ok u =>
      cases u
      simp only [hvb]
      by_cases hmem : b.topic_slug ∈ seen
      · rw [if_pos hmem]
        constructor
        · intro h
          cases h
        · rintro ⟨-, -, hseen⟩
          exact absurd hmem (hseen b.topic_slug (by simp))
      · rw [if_neg hmem, ih (b.topic_slug :: seen)]
        constructor
        · rintro ⟨hall, hnodup, hseen⟩
          refine ⟨?_, ?_, ?_⟩
          · intro x hx
            rcases List.mem_cons.mp hx with hx | hx
            · exact hx ▸ hvb
            · exact hall x hx
          · rw [List.map_cons, List.nodup_cons]
            refine ⟨?_, hnodup⟩
            intro hmem2
            exact (hseen _ hmem2) (List.mem_cons_self _ _)
          · intro s hs
            rcases List.mem_cons.mp hs with hs | hs
            · exact hs ▸ hmem
            · exact fun hc => (hseen s hs) (List.mem_cons_of_mem _ hc)
        · rintro ⟨hall, hnodup, hseen⟩
          rw [List.map_cons, List.nodup_cons] at hnodup
          refine ⟨fun x hx => hall x (List.mem_cons_of_mem _ hx), hnodup.2, ?_⟩
          intro s hs hc
          rcases List.mem_cons.mp hc with hc | hc
          · exact hnodup.1 (hc ▸ hs)
          · exact (hseen s (List.mem_cons_of_mem _ hs)) hc

lemma validate_ok_iff (c : AppConfig) :
    validate c = .ok () ↔ amendedInvalid c = false := by
  unfold validate amendedInvalid
  by_cases h1 : c.serial.baudrate ≤ 0
  · rw [if_pos h1]
    simp [h1]
  · rw [if_neg h1]
    by_cases h2 : c.mqtt.port ≤ 0
    · rw [if_pos h2]
      simp [h2]
    · rw [if_neg h2]
      by_cases h3 : c.polling.interval_sec < 1
      · rw [if_pos h3]
        simp [h3]
      · rw [if_neg h3]
        by_cases h4 : c.web.port ≤ 0
        · rw [if_pos h4]
          simp [h4]
        · rw [if_neg h4]
          rw [validateBoards_ok_iff]
          have hb1 : decide (c.serial.baudrate ≤ 0) = false := by simp [h1]
          have hb2 : decide (c.mqtt.port ≤ 0) = false := by simp [h2]
          have hb3 : decide (c.polling.interval_sec < 1) = false := by simp [h3]
          have hb4 : decide (c.web.port ≤ 0) = false := by simp [h4]
          rw [hb1, hb2, hb3, hb4]
          simp only [Bool.false_or, Bool.or_eq_false_iff]
          constructor
          · rintro ⟨hall, hnodup, -⟩
            constructor
            · rw [List.any_eq_false]
              intro b hb
              simp [(validateBoard_ok_iff b).mp (hall b hb)]
            · simp [hnodup]
          · rintro ⟨hany, hnodup⟩
            rw [List.any_eq_false] at hany
            refine ⟨?_, ?_, by simp⟩
            · intro b hb
              apply (validateBoard_ok_iff b).mpr
              simpa using hany b hb
            · simpa using hnodup

/-- Claim C5 (counterexample): the claim says validation raises exactly
when one of its enumerated conditions holds. `counterexampleConfigC5` — a
single thermostat board with `channel_start = 0` — satisfies none of the
enumerated conditions (`claimInvalid` is false), yet `validate` raises,
because `_validate` also rejects dimmer/thermostat boards with
`channel_start < 1`. -/
theorem claim_C5_counterexample :
    (∃ e, validate counterexampleConfigC5 = .error e) ∧
    claimInvalid counterexampleConfigC5 = false :=
  ⟨⟨"Canale non valido", rfl⟩, by decide⟩

/-- Claim C5 (amended): validation raises exactly when one of the claim's
conditions holds OR a dimmer/thermostat board has `channel_start < 1`
(the source's remaining branch); and every configuration that passes
validation yields a device index with unique keys — the topic slugs of
its enabled boards are pairwise distinct. -/
theorem claim_C5_amended (c : AppConfig) :
    ((∃ e, validate c = .error e) ↔ amendedInvalid c = true) ∧
    (validate c = .ok () →
      ((c.boards.filter (fun b => b.enabled)).map BoardConfig.topic_slug).Nodup) := by
  constructor
  · rw [exists_error_iff, (not_congr (validate_ok_iff c))]
    cases h : amendedInvalid c <;> simp
  · intro hok
    have h := (validate_ok_iff c).mp hok
    have hnodup : (c.boards.map BoardConfig.topic_slug).Nodup := by
      by_contra hcon
      simp [amendedInvalid, hcon] at h
    have hsub : ((c.boards.filter (fun b => b.enabled)).map BoardConfig.topic_slug).Sublist
        (c.boards.map BoardConfig.topic_slug) :=
      (List.filter_sublist _).map _
    exact hnodup.sublist hsub

/-- Claim C5 witness: the amended theorem applied to the default (empty)
configuration, which validates successfully. -/
theorem claim_C5_witness :
    validate {} = .ok () ∧
    ((({} : AppConfig).boards.filter (fun b => b.enabled)).map
      BoardConfig.topic_slug).Nodup :=
  ⟨rfl, (claim_C5_amended {}).2 rfl⟩

/-- Claim C1 (confirmed): for every inbound broker command on a topic
`{base}/{slug}/.../set` (excluding the reserved `{base}/poll_all/set`
topic, which the spec routes to the global poll trigger), if the slug is
unknown to the device index, or the indexed board has
`publish_enabled = false`, the command handler returns with no effects:
no bus frame is sent and no broker message is published. The board record
(`BoardConfig`) carries the `publish_enabled` flag alongside `enabled`;
the flag is modelled from the spec because the `BoardConfig` under src/
omits it (see the structure's doc comment). -/
theorem claim_C1_command_drop (index : List (String × BoardConfig))
    (parts : List String) (payload : String) (slug : String) (rest : List String)
    (hparts : parts = slug :: rest)
    (hnotpoll : parts ≠ ["poll_all", "set"])
    (hdrop : lookupSlug index slug = none ∨
      ∃ b, lookupSlug index slug = some b ∧ b.publish_enabled = false) :
    handle_mqtt_command index parts payload = [] := by
  subst hparts
  unfold handle_mqtt_command
  rw [if_neg hnotpoll]
  rcases hdrop with h | ⟨b, hb, hpub⟩
  · cases rest with
    | nil => rfl
    | cons r rs => simp [h]
  · cases rest with
    | nil => rfl
    | cons r rs => simp [hb, hpub]

/-- Claim C1 witness: the theorem applied to an index holding the
`kitchen` board with `publish_enabled = false` and the topic segments
`kitchen/set`. -/
theorem claim_C1_witness :
    (["kitchen", "set"] : List String) ≠ ["poll_all", "set"] ∧
    (∃ b, lookupSlug [("kitchen", sampleBoardUnpublished)] "kitchen" = some b ∧
      b.publish_enabled = false) ∧
    handle_mqtt_command [("kitchen", sampleBoardUnpublished)]
      ["kitchen", "set"] "ON" = [] :=
  ⟨by decide, ⟨sampleBoardUnpublished, rfl, rfl⟩,
   claim_C1_command_drop [("kitchen", sampleBoardUnpublished)] ["kitchen", "set"]
     "ON" "kitchen" ["set"] rfl (by decide)
     (Or.inr ⟨sampleBoardUnpublished, rfl, rfl⟩)⟩

lemma dropWhile_eq_self_of_forall {p : Char → Bool} :
    ∀ l : List Char, (∀ c ∈ l, p c = false) → l.dropWhile p = l := by
  intro l h
  cases l with
  | nil => rfl
  | cons c rest => simp [List.dropWhile_cons, h c (List.mem_cons_self c rest)]

lemma dropWhile_head_false {p : Char → Bool} {l : List Char} {c : Char}
    {rest : List Char} (h : l.dropWhile p = c :: rest) : p c = false := by
  have hm := List.head?_dropWhile_not p l
  rw [h] at hm
  exact hm

lemma dropWhile_dropWhile {p : Char → Bool} (l : List Char) :
    (l.dropWhile p).dropWhile p = l.dropWhile p := by
  cases h : l.dropWhile p with
  | nil => rfl
  | cons c rest =>
    rw [List.dropWhile_cons, dropWhile_head_false h]
    simp

lemma getLast?_dropWhile {p : Char → Bool} :
    ∀ l : List Char, l.dropWhile p = [] ∨ (l.dropWhile p).getLast? = l.getLast? := by
  intro l
  induction l with
  | nil => exact Or.inl rfl
  | cons c rest ih =>
    by_cases hc : p c
    · by_cases hnil : rest.dropWhile p = []
      · left
        rw [List.dropWhile_cons, if_pos hc]
        exact hnil
      · right
        rw [List.dropWhile_cons, if_pos hc, ih.resolve_left hnil]
        cases hr : rest with
        | nil =>
          rw [hr] at hnil
          exact absurd rfl hnil
        | cons d ds => rw [List.getLast?_cons_cons]
    · right
      rw [List.dropWhile_cons, if_neg hc]

lemma stripTwice {p : Char → Bool} (l : List Char) :
    ((((((l.dropWhile p).reverse.dropWhile p).reverse).dropWhile p).reverse.dropWhile p).reverse) =
      ((l.dropWhile p).reverse.dropWhile p).reverse := by
  set A := l.dropWhile p with hA
  set B := A.reverse.dropWhile p with hB
  have h1 : B.reverse.dropWhile p = B.reverse := by
    cases hBr : B.reverse with
    | nil => rfl
    | cons c rest =>
      have hBne : B ≠ [] := by
        intro h
        rw [h] at hBr
        cases hBr
      have h2 : B.getLast? = A.reverse.getLast? :=
        (getLast?_dropWhile A.reverse).resolve_left (by rw [← hB]; exact hBne)
      have h4 : B.getLast? = some c := by
        rw [← List.head?_reverse, hBr]
        rfl
      have h5 : A.head? = some c := by
        rw [← List.getLast?_reverse, ← h2, h4]
      have h6 : p c = false := by
        cases hA2 : A with
        | nil =>
          rw [hA2] at h5
          cases h5
        | cons a as =>
          rw [hA2] at h5
          have ha : a = c := by
            injection h5
          have : l.dropWhile p = a :: as := by rw [← hA, hA2]
          exact ha ▸ dropWhile_head_false this
      rw [List.dropWhile_cons, h6]
      simp
  rw [h1, List.reverse_reverse, dropWhile_dropWhile]

lemma stripUnderscore_idem (l : List Char) :
    stripUnderscore (stripUnderscore l) = stripUnderscore l := by
  unfold stripUnderscore
  exact stripTwice l

lemma mem_stripUnderscore {l : List Char} {c : Char}
    (h : c ∈ stripUnderscore l) : c ∈ l := by
  unfold stripUnderscore at h
  rw [List.mem_reverse] at h
  have h2 := (List.dropWhile_suffix _).subset h
  rw [List.mem_reverse] at h2
  exact (List.dropWhile_suffix _).subset h2

lemma mem_pyStrip {l : List Char} {c : Char} (h : c ∈ pyStrip l) : c ∈ l := by
  unfold pyStrip at h
  rw [List.mem_reverse] at h
  have h2 := (List.dropWhile_suffix _).subset h
  rw [List.mem_reverse] at h2
  exact (List.dropWhile_suffix _).subset h2

lemma isPyWs_false_of_alnum {c : Char} (h : isAsciiAlnum c = true) :
    isPyWs c = false := by
  unfold isAsciiAlnum at h
  unfold isPyWs
  rw [decide_eq_true_eq] at h
  rw [decide_eq_false_iff_not]
  omega

lemma pyStrip_map_toLower (l : List Char) :
    pyStrip (l.map Char.toLower) = (pyStrip l).map Char.toLower := by
  unfold pyStrip
  have hcomp : (isPyWs ∘ Char.toLower) = isPyWs := funext isPyWs_toLower
  rw [List.dropWhile_map, hcomp, ← List.map_reverse, List.dropWhile_map, hcomp,
    ← List.map_reverse]

lemma map_toLower_eq_self {l : List Char} (h : ∀ c ∈ l, c.toLower = c) :
    l.map Char.toLower = l := by
  calc l.map Char.toLower = l.map id := List.map_congr_left h
    _ = l := List.map_id l

lemma collapse_chars :
    ∀ (l : List Char) (b : Bool), ∀ c ∈ collapseNonAlnum b l,
      (c ∈ l ∧ isAsciiAlnum c = true) ∨ c = '_' := by
  intro l
  induction l with
  | nil =>
    intro b c hc
    simp [collapseNonAlnum] at hc
  | cons x rest ih =>
    intro b c hc
    by_cases hx : isAsciiAlnum x
    · rw [collapseNonAlnum, if_pos hx] at hc
      rcases List.mem_cons.mp hc with hc | hc
      · exact Or.inl ⟨hc ▸ List.mem_cons_self x rest, hc ▸ hx⟩
      · rcases ih false c hc with ⟨hm, hal⟩ | h_
        · exact Or.inl ⟨List.mem_cons_of_mem _ hm, hal⟩
        · exact Or.inr h_
    · cases b with
      | false =>
        rw [collapseNonAlnum, if_neg hx] at hc
        simp only [Bool.false_eq_true, if_false] at hc
        rcases List.mem_cons.mp hc with hc | hc
        · exact Or.inr hc
        · rcases ih true c hc with ⟨hm, hal⟩ | h_
          · exact Or.inl ⟨List.mem_cons_of_mem _ hm, hal⟩
          · exact Or.inr h_
      | true =>
        rw [collapseNonAlnum, if_neg hx] at hc
        simp only [if_true] at hc
        rcases ih true c hc with ⟨hm, hal⟩ | h_
        · exact Or.inl ⟨List.mem_cons_of_mem _ hm, hal⟩
        · exact Or.inr h_

lemma noAdjNon_tail {c : Char} {l : List Char}
    (h : noAdjNon (c :: l) = true) : noAdjNon l = true := by
  cases l with
  | nil => rfl
  | cons d ds =>
    rw [noAdjNon, Bool.and_eq_true] at h
    exact h.2

lemma noAdjNon_cons_of_alnum {c : Char} {l : List Char}
    (hc : isAsciiAlnum c = true) (hl : noAdjNon l = true) :
    noAdjNon (c :: l) = true := by
  cases l with
  | nil => rfl
  | cons d ds =>
    rw [noAdjNon, Bool.and_eq_true]
    exact ⟨by rw [hc]; rfl, hl⟩

lemma noAdjNon_cons_of_headAl {c : Char} {l : List Char}
    (hl : noAdjNon l = true) (hh : headAl l = true) :
    noAdjNon (c :: l) = true := by
  cases l with
  | nil => rfl
  | cons d ds =>
    rw [headAl] at hh
    rw [noAdjNon, Bool.and_eq_true]
    exact ⟨by rw [hh]; simp, hl⟩

lemma collapse_noAdj :
    ∀ l : List Char,
      noAdjNon (collapseNonAlnum false l) = true ∧
      noAdjNon (collapseNonAlnum true l) = true ∧
      headAl (collapseNonAlnum true l) = true := by
  intro l
  induction l with
  | nil => exact ⟨rfl, rfl, rfl⟩
  | cons c rest ih =>
    by_cases hc : isAsciiAlnum c
    · rw [collapseNonAlnum, if_pos hc, collapseNonAlnum, if_pos hc]
      refine ⟨noAdjNon_cons_of_alnum hc ih.1, noAdjNon_cons_of_alnum hc ih.1, ?_⟩
      rw [headAl, hc]
    · rw [collapseNonAlnum, if_neg hc, collapseNonAlnum, if_neg hc]
      simp only [Bool.false_eq_true, if_false, if_true]
      exact ⟨noAdjNon_cons_of_headAl ih.2.1 ih.2.2, ih.2.1, ih.2.2⟩

lemma collapse_true_of_headAl :
    ∀ l : List Char, headAl l = true →
      collapseNonAlnum true l = collapseNonAlnum false l := by
  intro l h
  cases l with
  | nil => rfl
  | cons c rest =>
    rw [headAl] at h
    rw [collapseNonAlnum, if_pos h, collapseNonAlnum, if_pos h]

lemma collapse_fixed :
    ∀ l : List Char, (∀ c ∈ l, isAsciiAlnum c = true ∨ c = '_') →
      noAdjNon l = true → collapseNonAlnum false l = l := by
  intro l
  induction l with
  | nil => intro _ _; rfl
  | cons c rest ih =>
    intro hok hadj
    rcases hok c (List.mem_cons_self c rest) with hal | hund
    · rw [collapseNonAlnum, if_pos hal]
      rw [ih (fun x hx => hok x (List.mem_cons_of_mem _ hx)) (noAdjNon_tail hadj)]
    · subst hund
      have hal : isAsciiAlnum '_' = false := by decide
      rw [collapseNonAlnum, if_neg (by rw [hal]; simp)]
      simp only [Bool.false_eq_true, if_false]
      have hhead : headAl rest = true := by
        cases rest with
        | nil => rfl
        | cons d ds =>
          rw [noAdjNon, Bool.and_eq_true] at hadj
          have := hadj.1
          rw [hal] at this
          rw [headAl]
          simpa using this
      rw [collapse_true_of_headAl rest hhead]
      rw [ih (fun x hx => hok x (List.mem_cons_of_mem _ hx)) (noAdjNon_tail hadj)]

lemma noAdjNon_prefix :
    ∀ (l t : List Char), noAdjNon (l ++ t) = true → noAdjNon l = true := by
  intro l
  induction l with
  | nil => intro t _; rfl
  | cons c rest ih =>
    intro t h
    cases rest with
    | nil => rfl
    | cons d ds =>
      rw [List.cons_append] at h
      rw [noAdjNon, Bool.and_eq_true]
      rw [List.cons_append] at h
      rw [noAdjNon, Bool.and_eq_true] at h
      exact ⟨h.1, ih t h.2⟩

lemma noAdjNon_suffix :
    ∀ (pre l : List Char), noAdjNon (pre ++ l) = true → noAdjNon l = true := by
  intro pre
  induction pre with
  | nil => intro l h; exact h
  | cons c rest ih =>
    intro l h
    rw [List.cons_append] at h
    exact ih l (noAdjNon_tail h)

lemma noAdjNon_stripUnderscore {l : List Char} (h : noAdjNon l = true) :
    noAdjNon (stripUnderscore l) = true := by
  obtain ⟨pre, hpre⟩ := List.dropWhile_suffix (l := l) (fun c => decide (c = '_'))
  have hA : noAdjNon (l.dropWhile (fun c => decide (c = '_'))) = true :=
    noAdjNon_suffix pre _ (by rw [hpre]; exact h)
  set A := l.dropWhile (fun c => decide (c = '_')) with hAdef
  obtain ⟨pre2, hpre2⟩ :=
    List.dropWhile_suffix (l := A.reverse) (fun c => decide (c = '_'))
  set s := A.reverse.dropWhile (fun c => decide (c = '_')) with hsdef
  have hprefix : s.reverse <+: A := by
    refine ⟨pre2.reverse, ?_⟩
    have : A.reverse = pre2 ++ s := hpre2.symm
    calc s.reverse ++ pre2.reverse = (pre2 ++ s).reverse := (List.reverse_append pre2 s).symm
      _ = A.reverse.reverse := by rw [this]
      _ = A := List.reverse_reverse A
  obtain ⟨t2, ht2⟩ := hprefix
  show noAdjNon s.reverse = true
  exact noAdjNon_prefix s.reverse t2 (by rw [ht2]; exact hA)

lemma slugifyChars_fix (t : List Char)
    (hchar : ∀ c ∈ t, (isAsciiAlnum c = true ∧ c.toLower = c) ∨ c = '_')
    (hadj : noAdjNon t = true)
    (hstrip : stripUnderscore t = t)
    (hne : t ≠ []) :
    slugifyChars t = t := by
  unfold slugifyChars
  have hws : ∀ c ∈ t, isPyWs c = false := by
    intro c hc
    rcases hchar c hc with ⟨hal, -⟩ | h_
    · exact isPyWs_false_of_alnum hal
    · rw [h_]
      decide
  have hstrip0 : pyStrip t = t := by
    unfold pyStrip
    rw [dropWhile_eq_self_of_forall t hws,
      dropWhile_eq_self_of_forall t.reverse
        (fun c hc => hws c (List.mem_reverse.mp hc)),
      List.reverse_reverse]
  rw [hstrip0]
  have hlow : t.map Char.toLower = t := by
    apply map_toLower_eq_self
    intro c hc
    rcases hchar c hc with ⟨-, hl⟩ | h_
    · exact hl
    · rw [h_]
      decide
  rw [hlow]
  have hcol : collapseNonAlnum false t = t := by
    apply collapse_fixed t ?_ hadj
    intro c hc
    rcases hchar c hc with ⟨hal, -⟩ | h_
    · exact Or.inl hal
    · exact Or.inr h_
  rw [hcol, hstrip, if_neg hne]

lemma slugifyChars_idem (l : List Char) :
    slugifyChars (slugifyChars l) = slugifyChars l := by
  have hdef : slugifyChars l =
      (if stripUnderscore (collapseNonAlnum false ((pyStrip l).map Char.toLower)) = []
       then "board".toList
       else stripUnderscore (collapseNonAlnum false ((pyStrip l).map Char.toLower))) := rfl
  by_cases hcl :
      stripUnderscore (collapseNonAlnum false ((pyStrip l).map Char.toLower)) = []
  · rw [hdef, if_pos hcl]
    decide
  · rw [hdef, if_neg hcl]
    set col := collapseNonAlnum false ((pyStrip l).map Char.toLower) with hcol
    apply slugifyChars_fix
    · intro c hc
      have hc2 := mem_stripUnderscore hc
      rcases collapse_chars _ false c hc2 with ⟨hm, hal⟩ | h_
      · obtain ⟨x, -, hx2⟩ := List.mem_map.mp hm
        exact Or.inl ⟨hal, by rw [← hx2]; exact toLower_idem x⟩
      · exact Or.inr h_
    · exact noAdjNon_stripUnderscore (collapse_noAdj _).1
    · exact stripUnderscore_idem col
    · exact hcl

lemma collapse_true_all_non :
    ∀ l : List Char, (∀ c ∈ l, isAsciiAlnum c = false) →
      collapseNonAlnum true l = [] := by
  intro l
  induction l with
  | nil => intro _; rfl
  | cons c rest ih =>
    intro h
    rw [collapseNonAlnum,
      if_neg (by rw [h c (List.mem_cons_self c rest)]; simp)]
    simp only [if_true]
    exact ih (fun x hx => h x (List.mem_cons_of_mem _ hx))

lemma collapse_false_all_non (l : List Char)
    (h : ∀ c ∈ l, isAsciiAlnum c = false) :
    collapseNonAlnum false l = [] ∨ collapseNonAlnum false l = ['_'] := by
  cases l with
  | nil => exact Or.inl rfl
  | cons c rest =>
    right
    rw [collapseNonAlnum,
      if_neg (by rw [h c (List.mem_cons_self c rest)]; simp)]
    simp only [Bool.false_eq_true, if_false]
    rw [collapse_true_all_non rest (fun x hx => h x (List.mem_cons_of_mem _ hx))]

lemma slugifyChars_all_non {l : List Char}
    (h : ∀ c ∈ l, isAsciiAlnum c = false) :
    slugifyChars l = "board".toList := by
  unfold slugifyChars
  have hall : ∀ c ∈ (pyStrip l).map Char.toLower, isAsciiAlnum c = false := by
    intro c hc
    obtain ⟨x, hx, hcx⟩ := List.mem_map.mp hc
    rw [← hcx, isAsciiAlnum_toLower]
    exact h x (mem_pyStrip hx)
  rcases collapse_false_all_non _ hall with hcol | hcol
  · rw [hcol]
    rfl
  · rw [hcol]
    rfl

/-- Claim C9 (confirmed): `slugify` is idempotent; it is stable under
changes of letter case (two strings that agree after lowercasing
slugify identically); and every empty or punctuation-only string — one
with no ASCII-alphanumeric character — yields `"board"`. Case mapping is
modelled on ASCII as in the source regex. -/
theorem claim_C9_slugify (s t : String) :
    slugify (slugify s) = slugify s ∧
    (s.data.map Char.toLower = t.data.map Char.toLower → slugify s = slugify t) ∧
    ((∀ c ∈ s.data, isAsciiAlnum c = false) → slugify s = "board") := by
  refine ⟨?_, ?_, ?_⟩
  · show String.mk (slugifyChars (slugifyChars s.data)) = String.mk (slugifyChars s.data)
    rw [slugifyChars_idem]
  · intro h
    show String.mk (slugifyChars s.data) = String.mk (slugifyChars t.data)
    congr 1
    unfold slugifyChars
    rw [← pyStrip_map_toLower, h, pyStrip_map_toLower]
  · intro h
    show String.mk (slugifyChars s.data) = "board"
    rw [slugifyChars_all_non h]
    rfl

/-- Claim C9 witness: the theorem applied to `"  Hello,  World! "` (with
its case-flipped variant) and to the punctuation-only string `"!! .."`. -/
theorem claim_C9_witness :
    ("  Hello,  World! ".data.map Char.toLower =
      "  HELLO,  WORLD! ".data.map Char.toLower) ∧
    slugify (slugify "  Hello,  World! ") = slugify "  Hello,  World! " ∧
    slugify "  Hello,  World! " = slugify "  HELLO,  WORLD! " ∧
    (∀ c ∈ "!! ..".data, isAsciiAlnum c = false) ∧
    slugify "!! .." = "board" := by
  have h1 := claim_C9_slugify "  Hello,  World! " "  HELLO,  WORLD! "
  have h2 := claim_C9_slugify "!! .." "!! .."
  exact ⟨by decide, h1.1, h1.2.1 (by decide), by decide, h2.2.2 (by decide)⟩

end Cerebro

